import Mathlib

/-!
Verification of the indicator / sentiment / news-classification core of
src/app/main.py (Financial Research Agent).

The numeric cells of a pandas column are modelled by the type PF below:
either a rational value, positive or negative infinity, or NaN.  The
arithmetic operations used by the code (elementwise add, subtract, divide)
are given their IEEE-754 semantics on these cells (division of a positive
value by zero is +inf, 0/0 is NaN, NaN propagates through every operation,
a finite value divided by an infinity is 0).  Signed zero is not tracked:
in this pipeline every zero that can reach a denominator is +0, so the
identification is exact for the values that arise.

Prices and sentiment scores are modelled as rationals; a price series is a
function from the bar index to the close price, and every statement about
a series quantifies only over the indices the claim concerns.
-/

namespace App

/-- A pandas float cell: NaN, +inf, -inf, or a finite (rational) value. -/
inductive PF where
  | nan : PF
  | pinf : PF
  | ninf : PF
  | val : ℚ → PF
deriving DecidableEq

/-- IEEE addition on cells: NaN propagates, inf + (-inf) is NaN. -/
def pfAdd : PF → PF → PF
  | .nan, _ => .nan
  | _, .nan => .nan
  | .pinf, .ninf => .nan
  | .ninf, .pinf => .nan
  | .pinf, _ => .pinf
  | _, .pinf => .pinf
  | .ninf, _ => .ninf
  | _, .ninf => .ninf
  | .val a, .val b => .val (a + b)

/-- IEEE subtraction on cells: NaN propagates, inf - inf is NaN. -/
def pfSub : PF → PF → PF
  | .nan, _ => .nan
  | _, .nan => .nan
  | .pinf, .pinf => .nan
  | .ninf, .ninf => .nan
  | .pinf, _ => .pinf
  | .ninf, _ => .ninf
  | _, .pinf => .ninf
  | _, .ninf => .pinf
  | .val a, .val b => .val (a - b)

/-- IEEE division on cells: NaN propagates, inf/inf is NaN, finite/inf is 0,
a nonzero finite value divided by (positive) zero is a signed infinity, and
0/0 is NaN. -/
def pfDiv : PF → PF → PF
  | .nan, _ => .nan
  | _, .nan => .nan
  | .pinf, .pinf => .nan
  | .pinf, .ninf => .nan
  | .ninf, .pinf => .nan
  | .ninf, .ninf => .nan
  | .pinf, .val b => if b < 0 then .ninf else .pinf
  | .ninf, .val b => if b < 0 then .pinf else .ninf
  | .val _, .pinf => .val 0
  | .val _, .ninf => .val 0
  | .val a, .val b =>
      if b = 0 then (if a = 0 then .nan else if 0 < a then .pinf else .ninf)
      else .val (a / b)

/-- The elementwise comparison cell > 0 (NaN compares false). -/
def pfPos : PF → Bool
  | .val a => decide (0 < a)
  | .pinf => true
  | _ => false

/-- The elementwise comparison cell < 0 (NaN compares false). -/
def pfIsNeg : PF → Bool
  | .val a => decide (a < 0)
  | .ninf => true
  | _ => false

/-- Elementwise negation of a cell. -/
def pfNegate : PF → PF
  | .nan => .nan
  | .pinf => .ninf
  | .ninf => .pinf
  | .val a => .val (-a)

/-- Close.diff(): the cell at index 0 is NaN, afterwards the difference of
consecutive closes (src/app/main.py line 50). -/
def delta (close : ℕ → ℚ) (i : ℕ) : PF :=
  if i = 0 then .nan else .val (close i - close (i - 1))

/-- delta.where(delta > 0, 0): keep the delta cell where it is positive,
otherwise 0; the NaN at index 0 compares false and becomes 0
(src/app/main.py line 51). -/
def gain (close : ℕ → ℚ) (i : ℕ) : PF :=
  if pfPos (delta close i) then delta close i else .val 0

/-- -delta.where(delta < 0, 0): keep the delta cell where it is negative,
otherwise 0, then negate; the NaN at index 0 compares false and becomes 0
(src/app/main.py line 52). -/
def loss (close : ℕ → ℚ) (i : ℕ) : PF :=
  pfNegate (if pfIsNeg (delta close i) then delta close i else .val 0)

/-- series.rolling(w).mean() at index i: NaN while fewer than w cells are
available; otherwise the sum of the trailing w cells (NaN poisoning the sum,
as min_periods = w makes any NaN in the window yield NaN) divided by w. -/
def rollingMean (w : ℕ) (xs : ℕ → PF) (i : ℕ) : PF :=
  if i + 1 < w then .nan
  else pfDiv ((List.range w).foldr (fun j acc => pfAdd (xs (i - j)) acc) (.val 0)) (.val w)

/-- gain.rolling(14).mean() (src/app/main.py line 53). -/
def avg_gain (close : ℕ → ℚ) (i : ℕ) : PF :=
  rollingMean 14 (gain close) i

/-- loss.rolling(14).mean() (src/app/main.py line 54). -/
def avg_loss (close : ℕ → ℚ) (i : ℕ) : PF :=
  rollingMean 14 (loss close) i

/-- rs = avg_gain / avg_loss (src/app/main.py line 55). -/
def rs (close : ℕ → ℚ) (i : ℕ) : PF :=
  pfDiv (avg_gain close i) (avg_loss close i)

/-- data["RSI"] = 100 - (100 / (1 + rs)) (src/app/main.py line 56). -/
def RSI (close : ℕ → ℚ) (i : ℕ) : PF :=
  pfSub (.val 100) (pfDiv (.val 100) (pfAdd (.val 1) (rs close i)))

/-- data["MA20"] = Close.rolling(window=20).mean() (src/app/main.py line 47);
the close column itself has no NaN cells. -/
def MA20 (close : ℕ → ℚ) (i : ℕ) : PF :=
  rollingMean 20 (fun j => .val (close j)) i

lemma pfAdd_val_val (a b : ℚ) : pfAdd (.val a) (.val b) = .val (a + b) := rfl

lemma pfAdd_val_pinf (a : ℚ) : pfAdd (.val a) .pinf = .pinf := rfl

lemma pfAdd_val_nan (a : ℚ) : pfAdd (.val a) .nan = .nan := rfl

lemma pfSub_val_val (a b : ℚ) : pfSub (.val a) (.val b) = .val (a - b) := rfl

lemma pfSub_val_nan (a : ℚ) : pfSub (.val a) .nan = .nan := rfl

lemma pfDiv_val_pinf (a : ℚ) : pfDiv (.val a) .pinf = .val 0 := rfl

lemma pfDiv_val_nan (a : ℚ) : pfDiv (.val a) .nan = .nan := rfl

lemma pfDiv_val_val (a b : ℚ) (hb : b ≠ 0) : pfDiv (.val a) (.val b) = .val (a / b) := by
  simp [pfDiv, hb]

lemma pfDiv_val_zero_of_pos (a : ℚ) (ha : 0 < a) : pfDiv (.val a) (.val 0) = .pinf := by
  simp [pfDiv, ne_of_gt ha, ha]

lemma pfDiv_zero_zero : pfDiv (.val 0) (.val 0) = PF.nan := by
  simp [pfDiv]

/-- A fold of pfAdd over cells that are all finite is the finite cell holding
the sum of the values. -/
lemma foldr_pfAdd_val (xs : ℕ → PF) (q : ℕ → ℚ) (i : ℕ) :
    ∀ l : List ℕ, (∀ j ∈ l, xs (i - j) = .val (q (i - j))) →
      l.foldr (fun j acc => pfAdd (xs (i - j)) acc) (.val 0) =
        .val ((l.map (fun j => q (i - j))).sum) := by
  intro l
  induction l with
  | nil => intro _; simp
  | cons a t ih =>
      intro h
      have ht := ih (fun j hj => h j (List.mem_cons_of_mem a hj))
      simp only [List.foldr_cons, ht, h a (List.mem_cons_self a t), pfAdd_val_val,
        List.map_cons, List.sum_cons]

/-- A rolling mean over a window of all-finite cells, once the window is
complete, is the finite cell holding the window average. -/
lemma rollingMean_eq_val (w : ℕ) (xs : ℕ → PF) (q : ℕ → ℚ) (i : ℕ)
    (hw : w ≠ 0) (hi : w ≤ i + 1) (h : ∀ j, xs j = .val (q j)) :
    rollingMean w xs i = .val (((List.range w).map (fun j => q (i - j))).sum / w) := by
  unfold rollingMean
  rw [if_neg (by omega)]
  rw [foldr_pfAdd_val xs q i (List.range w) (fun j _ => h (i - j))]
  exact pfDiv_val_val _ _ (by exact_mod_cast hw)

lemma list_sum_nonneg : ∀ l : List ℚ, (∀ x ∈ l, 0 ≤ x) → 0 ≤ l.sum := by
  intro l
  induction l with
  | nil => intro _; simp
  | cons a t ih =>
      intro h
      have ha := h a (List.mem_cons_self a t)
      have ht := ih (fun x hx => h x (List.mem_cons_of_mem a hx))
      simp only [List.sum_cons]
      linarith

lemma list_sum_pos (l : List ℚ) (h0 : ∀ x ∈ l, 0 ≤ x) (x : ℚ) (hx : x ∈ l)
    (hpos : 0 < x) : 0 < l.sum := by
  induction l with
  | nil => cases hx
  | cons a t ih =>
      have ha := h0 a (List.mem_cons_self a t)
      have ht0 : ∀ y ∈ t, 0 ≤ y := fun y hy => h0 y (List.mem_cons_of_mem a hy)
      simp only [List.sum_cons]
      rcases List.mem_cons.mp hx with rfl | hxt
      · have := list_sum_nonneg t ht0
        linarith
      · have := ih ht0 hxt
        linarith

/-- On a strictly increasing close series the loss cell is 0 at every index
(at index 0 the NaN difference compares false and becomes 0). -/
lemma loss_eq_zero_of_incr (close : ℕ → ℚ) (hmono : ∀ i, close i < close (i + 1))
    (j : ℕ) : loss close j = .val 0 := by
  unfold loss delta
  cases j with
  | zero => simp [pfIsNeg, pfNegate]
  | succ n =>
      have h : close n < close (n + 1) := hmono n
      have e1 : (if (n + 1 : ℕ) = 0 then PF.nan
            else PF.val (close (n + 1) - close (n + 1 - 1)))
          = PF.val (close (n + 1) - close n) := by
        rw [if_neg (Nat.succ_ne_zero n)]
        norm_num
      rw [e1]
      have hb : pfIsNeg (PF.val (close (n + 1) - close n)) = false := by
        have hlt : ¬ (close (n + 1) - close n < 0) := by linarith
        simp [pfIsNeg, hlt]
      rw [hb]
      simp [pfNegate]

/-- On a strictly increasing close series the gain cell holds 0 at index 0
and the (positive) price difference afterwards. -/
lemma gain_eq_of_incr (close : ℕ → ℚ) (hmono : ∀ i, close i < close (i + 1))
    (j : ℕ) : gain close j = .val (if j = 0 then 0 else close j - close (j - 1)) := by
  unfold gain delta
  cases j with
  | zero => simp [pfPos]
  | succ n =>
      have h : close n < close (n + 1) := hmono n
      have e1 : (if (n + 1 : ℕ) = 0 then PF.nan
            else PF.val (close (n + 1) - close (n + 1 - 1)))
          = PF.val (close (n + 1) - close n) := by
        rw [if_neg (Nat.succ_ne_zero n)]
        norm_num
      rw [e1]
      have hb : pfPos (PF.val (close (n + 1) - close n)) = true := by
        have hlt : 0 < close (n + 1) - close n := by linarith
        simp [pfPos, hlt]
      rw [hb]
      simp

/-- On a strictly increasing close series, once the 14-cell window is
complete, the average loss is the finite cell 0. -/
lemma avg_loss_of_incr (close : ℕ → ℚ) (hmono : ∀ i, close i < close (i + 1))
    (i : ℕ) (hi : 13 ≤ i) : avg_loss close i = .val 0 := by
  unfold avg_loss
  rw [rollingMean_eq_val 14 (loss close) (fun _ => 0) i (by omega) (by omega)
    (fun j => loss_eq_zero_of_incr close hmono j)]
  norm_num

/-- On a strictly increasing close series, once the 14-cell window is
complete, the average gain is a finite positive cell. -/
lemma avg_gain_of_incr (close : ℕ → ℚ) (hmono : ∀ i, close i < close (i + 1))
    (i : ℕ) (hi : 13 ≤ i) : ∃ a : ℚ, 0 < a ∧ avg_gain close i = .val a := by
  unfold avg_gain
  set q : ℕ → ℚ := fun j => if j = 0 then 0 else close j - close (j - 1) with hq
  rw [rollingMean_eq_val 14 (gain close) q i (by omega) (by omega)
    (fun j => gain_eq_of_incr close hmono j)]
  set l : List ℚ := (List.range 14).map (fun j => q (i - j)) with hl
  have hnonneg : ∀ x ∈ l, 0 ≤ x := by
    intro x hx
    rcases List.mem_map.mp hx with ⟨j, _, rfl⟩
    by_cases h0 : i - j = 0
    · simp [hq, h0]
    · have h1 : 1 ≤ i - j := by omega
      have : close (i - j - 1) < close (i - j) := by
        have := hmono (i - j - 1)
        have he : i - j - 1 + 1 = i - j := by omega
        rwa [he] at this
      simp only [hq, if_neg h0]
      linarith
  have hmem : q i ∈ l := by
    rw [hl]
    refine List.mem_map.mpr ⟨0, by simp, ?_⟩
    simp
  have hqi : 0 < q i := by
    have h0 : i ≠ 0 := by omega
    have : close (i - 1) < close i := by
      have := hmono (i - 1)
      have he : i - 1 + 1 = i := by omega
      rwa [he] at this
    simp only [hq, if_neg h0]
    linarith
  refine ⟨l.sum / 14, ?_, rfl⟩
  have hs : 0 < l.sum := list_sum_pos l hnonneg (q i) hmem hqi
  positivity

/-- On a constant close series, once the 14-cell window is complete, the
average gain is the finite cell 0. -/
lemma avg_gain_const (c : ℚ) (i : ℕ) (hi : 13 ≤ i) :
    avg_gain (fun _ => c) i = .val 0 := by
  unfold avg_gain
  have h : ∀ j, gain (fun _ => c) j = .val 0 := by
    intro j
    unfold gain delta
    cases j with
    | zero => simp [pfPos]
    | succ n => simp [pfPos]
  rw [rollingMean_eq_val 14 (gain fun _ => c) (fun _ => 0) i (by omega) (by omega) h]
  norm_num

/-- On a constant close series, once the 14-cell window is complete, the
average loss is the finite cell 0. -/
lemma avg_loss_const (c : ℚ) (i : ℕ) (hi : 13 ≤ i) :
    avg_loss (fun _ => c) i = .val 0 := by
  unfold avg_loss
  have h : ∀ j, loss (fun _ => c) j = .val 0 := by
    intro j
    unfold loss delta
    cases j with
    | zero => simp [pfIsNeg, pfNegate]
    | succ n => simp [pfIsNeg, pfNegate]
  rw [rollingMean_eq_val 14 (loss fun _ => c) (fun _ => 0) i (by omega) (by omega) h]
  norm_num

/-- C1: on a price series whose close column is strictly increasing, every
14-period average loss over a complete window is 0 and the average gain is
positive, so rs is +inf and the RSI cell computed by fetch_stock_data is the
finite value 100 (saturation) — in particular not NaN — at every index whose
window is complete (index 13 onward: the NaN of Close.diff() at index 0 is
turned into a 0 gain/loss by the where(…, 0) filters, so the first complete
rolling window ends at index 13). -/
theorem rsi_saturates_on_strict_increase (close : ℕ → ℚ)
    (hmono : ∀ i, close i < close (i + 1)) (i : ℕ) (hi : 13 ≤ i) :
    RSI close i = PF.val 100 := by
  obtain ⟨a, ha, hg⟩ := avg_gain_of_incr close hmono i hi
  unfold RSI rs
  rw [hg, avg_loss_of_incr close hmono i hi, pfDiv_val_zero_of_pos a ha,
    pfAdd_val_pinf, pfDiv_val_pinf, pfSub_val_val]
  norm_num

/-- Witness for C1: on the strictly increasing series close i = i the RSI
cell at index 13 is 100. -/
theorem rsi_saturates_on_strict_increase_witness :
    RSI (fun i => (i : ℚ)) 13 = PF.val 100 :=
  rsi_saturates_on_strict_increase (fun i => (i : ℚ))
    (fun i => by show (i : ℚ) < ((i + 1 : ℕ) : ℚ); exact_mod_cast Nat.lt_succ_self i)
    13 (by norm_num)

/-- C2 (counterexample): on the concrete flat series with every close equal
to 100, index 13 has a complete window with both 14-period averages equal to
0, and the RSI cell produced by fetch_stock_data is the floating-point NaN
(the cell PF.nan, i.e. 0/0 propagated through rs into the column) — not an
explicit "undefined" sentinel distinct from NaN, contrary to the claim. -/
theorem rsi_flat_nan_counterexample : RSI (fun _ => (100 : ℚ)) 13 = PF.nan := by
  unfold RSI rs
  rw [avg_gain_const 100 13 (by norm_num), avg_loss_const 100 13 (by norm_num),
    pfDiv_zero_zero, pfAdd_val_nan, pfDiv_val_nan, pfSub_val_nan]

/-- C2 (amended): at every index where both the 14-period average gain and
the 14-period average loss are 0, the RSI cell produced by fetch_stock_data
is the floating-point NaN propagated silently from rs = 0/0; the code
produces no explicit sentinel. -/
theorem rsi_flat_is_nan (close : ℕ → ℚ) (i : ℕ)
    (hg : avg_gain close i = PF.val 0) (hl : avg_loss close i = PF.val 0) :
    RSI close i = PF.nan := by
  unfold RSI rs
  rw [hg, hl, pfDiv_zero_zero, pfAdd_val_nan, pfDiv_val_nan, pfSub_val_nan]

/-- Witness for the amended C2: the flat series at 7 yields NaN at index 20. -/
theorem rsi_flat_is_nan_witness : RSI (fun _ => (7 : ℚ)) 20 = PF.nan :=
  rsi_flat_is_nan (fun _ => 7) 20 (avg_gain_const 7 20 (by norm_num))
    (avg_loss_const 7 20 (by norm_num))

/-- C6: the MA20 cell computed by fetch_stock_data is NaN (pandas' "no
value" sentinel, in particular not zero) at every index below 19, and from
index 19 on it is the arithmetic mean of the trailing 20 closes; a series
of length below 20 only has indices below 19, so its MA20 column is
undefined everywhere. -/
theorem ma20_window (close : ℕ → ℚ) (i : ℕ) :
    (i < 19 → MA20 close i = PF.nan) ∧
    (19 ≤ i → MA20 close i =
      PF.val (((List.range 20).map (fun j => close (i - j))).sum / 20)) := by
  constructor
  · intro h
    unfold MA20 rollingMean
    rw [if_pos (by omega)]
  · intro h
    have e := rollingMean_eq_val 20 (fun j => .val (close j)) close i
      (by omega) (by omega) (fun j => rfl)
    unfold MA20
    rw [e]
    norm_num

/-- Witness for C6: on a constant series at 1, MA20 is NaN at index 5 and
the value 1 at index 19. -/
theorem ma20_window_witness :
    MA20 (fun _ => (1 : ℚ)) 5 = PF.nan ∧ MA20 (fun _ => (1 : ℚ)) 19 = PF.val 1 := by
  constructor
  · exact (ma20_window (fun _ => (1 : ℚ)) 5).1 (by norm_num)
  · have h := (ma20_window (fun _ => (1 : ℚ)) 19).2 (by norm_num)
    rw [h]
    norm_num

/-- The three-way sentiment label of analyze_sentiment. -/
inductive Sentiment where
  | Positive : Sentiment
  | Negative : Sentiment
  | Neutral : Sentiment
deriving DecidableEq

/-- Labeling logic of analyze_sentiment (src/app/main.py lines 111-128): the
VADER compound score is the black-box input; the emoji color returned
alongside the label mirrors it one-to-one and is presentation-only, so the
embedding returns the label. -/
def analyze_sentiment (compound : ℚ) : Sentiment :=
  if 5 / 100 ≤ compound then .Positive
  else if compound ≤ -(5 / 100) then .Negative
  else .Neutral

/-- The predicate counted as positive in display_news_sentiment
(src/app/main.py line 240: s >= 0.05). -/
def positive_pred (s : ℚ) : Bool := decide (5 / 100 ≤ s)

/-- The predicate counted as neutral in display_news_sentiment
(src/app/main.py line 241: -0.05 < s < 0.05). -/
def neutral_pred (s : ℚ) : Bool := decide (-(5 / 100) < s ∧ s < 5 / 100)

/-- The predicate counted as negative in display_news_sentiment
(src/app/main.py line 242: s <= -0.05). -/
def negative_pred (s : ℚ) : Bool := decide (s ≤ -(5 / 100))

/-- positive_count = sum(1 for s in sentiments if s >= 0.05)
(src/app/main.py line 240). -/
def positive_count (sentiments : List ℚ) : ℕ := sentiments.countP positive_pred

/-- neutral_count = sum(1 for s in sentiments if -0.05 < s < 0.05)
(src/app/main.py line 241). -/
def neutral_count (sentiments : List ℚ) : ℕ := sentiments.countP neutral_pred

/-- negative_count = sum(1 for s in sentiments if s <= -0.05)
(src/app/main.py line 242). -/
def negative_count (sentiments : List ℚ) : ℕ := sentiments.countP negative_pred

/-- avg_sentiment = sum(sentiments) / len(sentiments) if sentiments else 0
(src/app/main.py line 235). -/
def avg_sentiment (sentiments : List ℚ) : ℚ :=
  if sentiments.isEmpty then 0 else sentiments.sum / sentiments.length

/-- C3: the labeling of analyze_sentiment is a total, non-overlapping
partition of the score line: the label is Positive exactly on scores at or
above 0.05, Negative exactly on scores at or below -0.05, and Neutral
exactly on the open band in between; in particular a score of exactly 0.05
is labeled Positive and a score of exactly -0.05 is labeled Negative. -/
theorem analyze_sentiment_partition (c : ℚ) :
    ((analyze_sentiment c = .Positive ↔ 5 / 100 ≤ c) ∧
     (analyze_sentiment c = .Negative ↔ c ≤ -(5 / 100)) ∧
     (analyze_sentiment c = .Neutral ↔ (-(5 / 100) < c ∧ c < 5 / 100))) ∧
    analyze_sentiment (5 / 100) = .Positive ∧
    analyze_sentiment (-(5 / 100)) = .Negative := by
  refine ⟨?_, ?_, ?_⟩
  · unfold analyze_sentiment
    split_ifs with h1 h2
    · exact ⟨⟨fun _ => h1, fun _ => rfl⟩,
        ⟨fun h => absurd h (by decide), fun h => by linarith⟩,
        ⟨fun h => absurd h (by decide), fun h => by linarith [h.2]⟩⟩
    · exact ⟨⟨fun h => absurd h (by decide), fun h => absurd h h1⟩,
        ⟨fun _ => h2, fun _ => rfl⟩,
        ⟨fun h => absurd h (by decide), fun h => by linarith [h.1]⟩⟩
    · exact ⟨⟨fun h => absurd h (by decide), fun h => absurd h h1⟩,
        ⟨fun h => absurd h (by decide), fun h => absurd h h2⟩,
        ⟨fun _ => ⟨by linarith [not_le.mp h2], not_le.mp h1⟩, fun _ => rfl⟩⟩
  · unfold analyze_sentiment
    rw [if_pos le_rfl]
  · unfold analyze_sentiment
    rw [if_neg (by norm_num), if_pos le_rfl]

/-- C10: the three counting predicates of display_news_sentiment agree with
the label assigned by analyze_sentiment to the same compound score: a score
is counted positive exactly when labeled Positive, neutral exactly when
labeled Neutral, and negative exactly when labeled Negative. -/
theorem counts_agree_with_labels (s : ℚ) :
    (positive_pred s = true ↔ analyze_sentiment s = .Positive) ∧
    (neutral_pred s = true ↔ analyze_sentiment s = .Neutral) ∧
    (negative_pred s = true ↔ analyze_sentiment s = .Negative) := by
  unfold positive_pred neutral_pred negative_pred analyze_sentiment
  split_ifs with h1 h2
  · refine ⟨⟨fun _ => rfl, fun _ => by simpa using h1⟩,
      ⟨fun h => by simp at h; linarith [h.2], fun h => by simp at h⟩,
      ⟨fun h => by simp at h; linarith, fun h => by simp at h⟩⟩
  · refine ⟨⟨fun h => by simp at h; exact absurd h h1, fun h => by simp at h⟩,
      ⟨fun h => by simp at h; linarith [h.1], fun h => by simp at h⟩,
      ⟨fun _ => rfl, fun _ => by simpa using h2⟩⟩
  · refine ⟨⟨fun h => by simp at h; exact absurd h h1, fun h => by simp at h⟩,
      ⟨fun _ => rfl, fun _ => by simp; exact ⟨by linarith [not_le.mp h2], not_le.mp h1⟩⟩,
      ⟨fun h => by simp at h; exact absurd h h2, fun h => by simp at h⟩⟩

/-- C4: for every list of compound scores, the three counts computed in
display_news_sentiment sum to the number of scored articles. -/
theorem counts_sum_to_length (sentiments : List ℚ) :
    positive_count sentiments + neutral_count sentiments + negative_count sentiments
      = sentiments.length := by
  unfold positive_count neutral_count negative_count
  induction sentiments with
  | nil => rfl
  | cons s t ih =>
      simp only [List.countP_cons, List.length_cons]
      rcases le_or_lt (5 / 100 : ℚ) s with h1 | h1
      · have hp : positive_pred s = true := by simp [positive_pred, h1]
        have hn : neutral_pred s = false := by
          simp only [neutral_pred, decide_eq_false_iff_not, not_and, not_lt]
          intro _
          linarith
        have hg : negative_pred s = false := by
          simp only [negative_pred, decide_eq_false_iff_not, not_le]
          linarith
        simp [hp, hn, hg]
        omega
      · rcases le_or_lt s (-(5 / 100)) with h2 | h2
        · have hp : positive_pred s = false := by
            simp only [positive_pred, decide_eq_false_iff_not, not_le]
            exact h1
          have hn : neutral_pred s = false := by
            simp only [neutral_pred, decide_eq_false_iff_not, not_and, not_lt]
            intro h
            linarith
          have hg : negative_pred s = true := by simp [negative_pred, h2]
          simp [hp, hn, hg]
          omega
        · have hp : positive_pred s = false := by
            simp only [positive_pred, decide_eq_false_iff_not, not_le]
            exact h1
          have hn : neutral_pred s = true := by
            simp only [neutral_pred, decide_eq_true_eq]
            exact ⟨h2, h1⟩
          have hg : negative_pred s = false := by
            simp only [negative_pred, decide_eq_false_iff_not, not_le]
            exact h2
          simp [hp, hn, hg]
          omega

/-- C5: on the empty list of scored articles the aggregation of
display_news_sentiment yields a mean score of exactly 0 (the explicit
fallback of the conditional expression, with no division performed) and all
three class counts equal to 0. -/
theorem summarize_empty :
    avg_sentiment [] = 0 ∧ positive_count [] = 0 ∧ neutral_count [] = 0 ∧
      negative_count [] = 0 :=
  ⟨rfl, rfl, rfl, rfl⟩

/-- The module-level hardcoded News API key (src/app/main.py line 15). -/
def api_key : String := "your_api_key_here"

/-- The credential guard at the top of fetch_financial_news
(src/app/main.py line 68): `not api_key_input or api_key_input ==
"YOUR_API_KEY_HERE"` — true exactly when the function reports the
missing-credential configuration error and returns before the HTTP
request; the same guard is repeated in display_news_sentiment (line 197). -/
def news_api_key_guard (api_key_input : String) : Bool :=
  api_key_input.isEmpty || api_key_input == "YOUR_API_KEY_HERE"

/-- C7 (code evaluated at the failing input): the guard does detect an empty
key and the uppercase placeholder, but the module's own hardcoded default
"your_api_key_here" (lowercase) is not detected — the guard is false on it,
so fetch_financial_news proceeds to the HTTP request instead of reporting a
missing-credential error, contrary to the claim. -/
theorem api_key_guard_misses_default :
    api_key = "your_api_key_here" ∧
    news_api_key_guard api_key = false ∧
    news_api_key_guard "" = true ∧
    news_api_key_guard "YOUR_API_KEY_HERE" = true :=
  ⟨rfl, by decide, rfl, by decide⟩

/-- Outcome of one news-provider HTTP response, following the branches of
fetch_financial_news (src/app/main.py lines 89-101). -/
inductive NewsResult where
  | articles : List String → NewsResult
  | emptyWithNote : NewsResult
  | invalidApiKey : NewsResult
  | upgradeRequired : NewsResult
  | rateLimited : NewsResult
  | httpError : ℕ → NewsResult
deriving DecidableEq

/-- The status-code classification of fetch_financial_news
(src/app/main.py lines 89-101): 200 returns the article list (or an empty
list with an informational note), 401 the invalid-key error, 426 the
plan-upgrade error, 429 the rate-limit error, and any other status the
generic error carrying the code. -/
def classify_news_response (status : ℕ) (xs : List String) : NewsResult :=
  if status = 200 then (if xs.isEmpty then .emptyWithNote else .articles xs)
  else if status = 401 then .invalidApiKey
  else if status = 426 then .upgradeRequired
  else if status = 429 then .rateLimited
  else .httpError status

/-- C8: fetch_financial_news classifies provider responses per the error
taxonomy: 200 with a non-empty article list succeeds with the articles, 401
yields the invalid-credential error, 426 the plan-restriction error, 429
the rate-limit error (distinct from the generic case), and every other
non-2xx status the generic HTTP error carrying the code. -/
theorem news_error_taxonomy (xs : List String) :
    (xs ≠ [] → classify_news_response 200 xs = .articles xs) ∧
    classify_news_response 401 xs = .invalidApiKey ∧
    classify_news_response 426 xs = .upgradeRequired ∧
    classify_news_response 429 xs = .rateLimited ∧
    (∀ status : ℕ, ¬ (200 ≤ status ∧ status < 300) → status ≠ 401 → status ≠ 426 →
      status ≠ 429 → classify_news_response status xs = .httpError status) := by
  refine ⟨?_, rfl, rfl, rfl, ?_⟩
  · intro h
    unfold classify_news_response
    rw [if_pos rfl, if_neg (by simpa using h)]
  · intro status h2xx h401 h426 h429
    unfold classify_news_response
    rw [if_neg (by omega), if_neg h401, if_neg h426, if_neg h429]

/-- Witness for C8: a 200 response with one article succeeds and a 500
response yields the generic HTTP error carrying 500. -/
theorem news_error_taxonomy_witness :
    classify_news_response 200 ["a"] = .articles ["a"] ∧
    classify_news_response 500 ["a"] = .httpError 500 := by
  have h := news_error_taxonomy ["a"]
  exact ⟨h.1 (by simp), h.2.2.2.2 500 (by omega) (by omega) (by omega) (by omega)⟩

/-- Modelled from the spec: the cache layer of the observed program is the
st.cache_data decorator (ttl = 3600 s for fetch_stock_data, 1800 s for
fetch_financial_news), whose implementation is not part of this repository;
this definition follows the §4.6 contract getOrCompute(key, ttl, producer):
return the stored value if one is present and now < storedAt + ttl,
otherwise invoke the producer, store its result with storedAt = now, and
return it.  The state is the map from keys to (value, storedAt) pairs; the
returned Bool records whether the producer was invoked by this call. -/
def getOrCompute {K V : Type} [DecidableEq K] (cache : K → Option (V × ℕ))
    (now : ℕ) (k : K) (ttl : ℕ) (producer : Unit → V) :
    V × (K → Option (V × ℕ)) × Bool :=
  match cache k with
  | some (v, storedAt) =>
      if now < storedAt + ttl then (v, cache, false)
      else (producer (), fun k2 => if k2 = k then some (producer (), now) else cache k2, true)
  | none =>
      (producer (), fun k2 => if k2 = k then some (producer (), now) else cache k2, true)

/-- C9: starting from a state holding no entry for k, a first call at time
t1 invokes the producer; a second call at time t2 < t1 + ttl does not invoke
it again, returns the stored first result, and leaves the cache unchanged
(so across the two calls the producer runs exactly once); a third call at
time t3 ≥ t1 + ttl invokes its producer again, returns the fresh result, and
stores it with storedAt = t3. -/
theorem cache_roundtrip {K V : Type} [DecidableEq K]
    (c0 : K → Option (V × ℕ)) (k : K) (ttl : ℕ) (f g : Unit → V) (t1 t2 t3 : ℕ)
    (hk : c0 k = none) (h2 : t2 < t1 + ttl) (h3 : t1 + ttl ≤ t3) :
    (getOrCompute c0 t1 k ttl f).2.2 = true ∧
    (getOrCompute c0 t1 k ttl f).1 = f () ∧
    (getOrCompute (getOrCompute c0 t1 k ttl f).2.1 t2 k ttl f).2.2 = false ∧
    (getOrCompute (getOrCompute c0 t1 k ttl f).2.1 t2 k ttl f).1 = f () ∧
    (getOrCompute (getOrCompute c0 t1 k ttl f).2.1 t2 k ttl f).2.1
      = (getOrCompute c0 t1 k ttl f).2.1 ∧
    (getOrCompute (getOrCompute (getOrCompute c0 t1 k ttl f).2.1 t2 k ttl f).2.1
      t3 k ttl g).2.2 = true ∧
    (getOrCompute (getOrCompute (getOrCompute c0 t1 k ttl f).2.1 t2 k ttl f).2.1
      t3 k ttl g).1 = g () ∧
    (getOrCompute (getOrCompute (getOrCompute c0 t1 k ttl f).2.1 t2 k ttl f).2.1
      t3 k ttl g).2.1 k = some (g (), t3) := by
  have h3' : ¬ t3 < t1 + ttl := by omega
  simp [getOrCompute, hk, h2, h3']

/-- Witness for C9: with natural-number keys and values, producer 7 runs at
time 0, is not re-run at time 5 with ttl 10, and producer 8 runs at time 10
and is stored with storedAt = 10. -/
theorem cache_roundtrip_witness :
    (getOrCompute (getOrCompute (fun _ : ℕ => (none : Option (ℕ × ℕ))) 0 0 10
      (fun _ => 7)).2.1 5 0 10 (fun _ => 7)).2.2 = false ∧
    (getOrCompute (getOrCompute (getOrCompute (fun _ : ℕ => (none : Option (ℕ × ℕ))) 0 0 10
      (fun _ => 7)).2.1 5 0 10 (fun _ => 7)).2.1 10 0 10 (fun _ => 8)).1 = 8 := by
  have h := cache_roundtrip (fun _ : ℕ => (none : Option (ℕ × ℕ))) 0 10
    (fun _ => 7) (fun _ => 8) 0 5 10 rfl (by omega) (by omega)
  exact ⟨h.2.2.1, h.2.2.2.2.2.2.1⟩

end App
